import Mathlib

/-!
Verification of the REPAIR Protocol Agent Coordinator
(source file: src/unnamed/part_004, class AgentCoordinator).

The development shallowly embeds the coordinator's data model and
operations.  JavaScript values are modelled by the inductive JsVal;
JavaScript numbers are modelled as integers (none of the verified
properties depend on non-integral arithmetic).  A thrown JavaScript
exception is modelled as an Except.error of type JsError.  Analyzer
agents are external collaborators and are modelled as an oracle
(a function from agent name, method name and argument list to a
settled outcome), matching the settle-all fan-out of the source.
-/

namespace RepairCoordinator

mutual

/-- Model of a JavaScript value.  Numbers are modelled as integers;
NaN-producing corner cases are collapsed to the undefined value.  Array element
lists and object field lists are separate inductives so that every
function on values is structurally recursive and computes. -/
inductive JsVal where
  | undefv : JsVal
  | nullv : JsVal
  | bool : Bool → JsVal
  | num : Int → JsVal
  | str : String → JsVal
  | arr : JsList → JsVal
  | obj : JsFields → JsVal

/-- The element list of a modelled array. -/
inductive JsList where
  | nil : JsList
  | cons : JsVal → JsList → JsList

/-- The field list of a modelled object. -/
inductive JsFields where
  | nil : JsFields
  | cons : String → JsVal → JsFields → JsFields

end

/-- Model of a thrown JavaScript exception. -/
inductive JsError where
  | typeError : String → JsError
deriving DecidableEq, Repr

/-- The elements of a modelled array as a Lean list. -/
def JsList.toList : JsList → List JsVal
  | .nil => []
  | .cons h t => h :: t.toList

/-- A modelled array from a Lean list. -/
def JsList.ofList : List JsVal → JsList
  | [] => .nil
  | h :: t => .cons h (ofList t)

/-- The fields of a modelled object as a Lean list. -/
def JsFields.toList : JsFields → List (String × JsVal)
  | .nil => []
  | .cons k v t => (k, v) :: t.toList

/-- A modelled object field list from a Lean list. -/
def JsFields.ofList : List (String × JsVal) → JsFields
  | [] => .nil
  | (k, v) :: t => .cons k v (ofList t)

/-- Field lookup inside a modelled object. -/
def JsFields.lookup (k : String) : JsFields → Option JsVal
  | .nil => none
  | .cons k' v t => if k' = k then some v else t.lookup k

/-- The length of a modelled array. -/
def JsList.length : JsList → Nat
  | .nil => 0
  | .cons _ t => t.length + 1

/-- Object literal from a Lean field list. -/
def JsVal.mkObj (fs : List (String × JsVal)) : JsVal := .obj (.ofList fs)

/-- Array literal from a Lean element list. -/
def JsVal.mkArr (xs : List JsVal) : JsVal := .arr (.ofList xs)

mutual

/-- Decidable equality of modelled JavaScript values. -/
def decEqVal : (a b : JsVal) → Decidable (a = b)
  | .undefv, .undefv => isTrue rfl
  | .nullv, .nullv => isTrue rfl
  | .bool x, .bool y =>
    if h : x = y then isTrue (by rw [h])
    else isFalse (by intro hh; injection hh with h1; exact h h1)
  | .num x, .num y =>
    if h : x = y then isTrue (by rw [h])
    else isFalse (by intro hh; injection hh with h1; exact h h1)
  | .str x, .str y =>
    if h : x = y then isTrue (by rw [h])
    else isFalse (by intro hh; injection hh with h1; exact h h1)
  | .arr xs, .arr ys =>
    match decEqValList xs ys with
    | isTrue h => isTrue (by rw [h])
    | isFalse h => isFalse (by intro hh; injection hh with h1; exact h h1)
  | .obj xs, .obj ys =>
    match decEqValFields xs ys with
    | isTrue h => isTrue (by rw [h])
    | isFalse h => isFalse (by intro hh; injection hh with h1; exact h h1)
  | .undefv, .nullv => isFalse nofun
  | .undefv, .bool _ => isFalse nofun
  | .undefv, .num _ => isFalse nofun
  | .undefv, .str _ => isFalse nofun
  | .undefv, .arr _ => isFalse nofun
  | .undefv, .obj _ => isFalse nofun
  | .nullv, .undefv => isFalse nofun
  | .nullv, .bool _ => isFalse nofun
  | .nullv, .num _ => isFalse nofun
  | .nullv, .str _ => isFalse nofun
  | .nullv, .arr _ => isFalse nofun
  | .nullv, .obj _ => isFalse nofun
  | .bool _, .undefv => isFalse nofun
  | .bool _, .nullv => isFalse nofun
  | .bool _, .num _ => isFalse nofun
  | .bool _, .str _ => isFalse nofun
  | .bool _, .arr _ => isFalse nofun
  | .bool _, .obj _ => isFalse nofun
  | .num _, .undefv => isFalse nofun
  | .num _, .nullv => isFalse nofun
  | .num _, .bool _ => isFalse nofun
  | .num _, .str _ => isFalse nofun
  | .num _, .arr _ => isFalse nofun
  | .num _, .obj _ => isFalse nofun
  | .str _, .undefv => isFalse nofun
  | .str _, .nullv => isFalse nofun
  | .str _, .bool _ => isFalse nofun
  | .str _, .num _ => isFalse nofun
  | .str _, .arr _ => isFalse nofun
  | .str _, .obj _ => isFalse nofun
  | .arr _, .undefv => isFalse nofun
  | .arr _, .nullv => isFalse nofun
  | .arr _, .bool _ => isFalse nofun
  | .arr _, .num _ => isFalse nofun
  | .arr _, .str _ => isFalse nofun
  | .arr _, .obj _ => isFalse nofun
  | .obj _, .undefv => isFalse nofun
  | .obj _, .nullv => isFalse nofun
  | .obj _, .bool _ => isFalse nofun
  | .obj _, .num _ => isFalse nofun
  | .obj _, .str _ => isFalse nofun
  | .obj _, .arr _ => isFalse nofun

/-- Decidable equality of modelled array element lists. -/
def decEqValList : (a b : JsList) → Decidable (a = b)
  | .nil, .nil => isTrue rfl
  | .nil, .cons _ _ => isFalse nofun
  | .cons _ _, .nil => isFalse nofun
  | .cons x xs, .cons y ys =>
    match decEqVal x y with
    | isFalse h => isFalse (by intro hh; injection hh with h1 h2; exact h h1)
    | isTrue h1 =>
      match decEqValList xs ys with
      | isTrue h2 => isTrue (by rw [h1, h2])
      | isFalse h => isFalse (by intro hh; injection hh with ha hb; exact h hb)

/-- Decidable equality of modelled object field lists. -/
def decEqValFields : (a b : JsFields) → Decidable (a = b)
  | .nil, .nil => isTrue rfl
  | .nil, .cons _ _ _ => isFalse nofun
  | .cons _ _ _, .nil => isFalse nofun
  | .cons k v xs, .cons k2 v2 ys =>
    if hk : k = k2 then
      match decEqVal v v2 with
      | isFalse h => isFalse (by intro hh; injection hh with h1 h2 h3; exact h h2)
      | isTrue hv =>
        match decEqValFields xs ys with
        | isTrue ht => isTrue (by rw [hk, hv, ht])
        | isFalse h => isFalse (by intro hh; injection hh with h1 h2 h3; exact h h3)
    else
      isFalse (by intro hh; injection hh with h1 h2 h3; exact hk h1)

end

instance : DecidableEq JsVal := decEqVal

instance : DecidableEq JsList := decEqValList

instance : DecidableEq JsFields := decEqValFields

namespace JsVal

/-- JavaScript truthiness: undefined and null, false, 0 and the empty
string are falsy; every other value (including empty arrays and empty
objects) is truthy. -/
def truthy : JsVal → Bool
  | undefv => false
  | nullv => false
  | bool b => b
  | num n => n != 0
  | str s => s ≠ ""
  | arr _ => true
  | obj _ => true

/-- Property read that never throws: used where the base is known to be
neither null nor undefined (for example after a truthiness guard), and
as the building block of the throwing and optional-chaining variants.
Arrays and strings expose their length property; property reads on
other primitives yield undefined. -/
def get : JsVal → String → JsVal
  | obj fs, k => (fs.lookup k).getD undefv
  | arr xs, k => if k = "length" then num xs.length else undefv
  | str s, k => if k = "length" then num s.length else undefv
  | _, _ => undefv

/-- Plain property access: reading a property of undefined or null
throws a TypeError, as in JavaScript. -/
def getE : JsVal → String → Except JsError JsVal
  | undefv, k => .error (.typeError ("Cannot read properties of undefined (reading " ++ k ++ ")"))
  | nullv, k => .error (.typeError ("Cannot read properties of null (reading " ++ k ++ ")"))
  | v, k => .ok (v.get k)

/-- Optional-chaining property access a?.b: undefined or null bases
short-circuit to undefined. -/
def getOpt : JsVal → String → JsVal
  | undefv, _ => undefv
  | nullv, _ => undefv
  | v, k => v.get k

/-- The JavaScript logical-or a || b. -/
def orElse (a b : JsVal) : JsVal := if a.truthy then a else b

end JsVal

mutual

/-- JavaScript ToString coercion.  Arrays stringify by joining their
elements with commas, with null and undefined elements joining as the
empty string; plain objects stringify to the bracketed object tag. -/
def jsToString : JsVal → String
  | .undefv => "undefined"
  | .nullv => "null"
  | .bool true => "true"
  | .bool false => "false"
  | .num n => toString n
  | .str s => s
  | .arr xs => jsJoin xs
  | .obj _ => "[object Object]"

/-- Comma-join of array elements for jsToString: null and undefined
elements join as the empty string. -/
def jsJoin : JsList → String
  | .nil => ""
  | .cons x t =>
    (match x with
      | .undefv => ""
      | .nullv => ""
      | v => jsToString v)
    ++ (match t with
      | .nil => ""
      | t' => "," ++ jsJoin t')

end

/-- The JavaScript + operator as used by the coordinator.  When both
operands are numbers it adds; otherwise it concatenates the ToString
coercions.  (Numeric coercion of booleans and null, and the NaN
produced by undefined operands, are outside the modelled value range;
every use in the source applies + to strings or numbers.) -/
def jsPlus (a b : JsVal) : JsVal :=
  match a, b with
  | .num x, .num y => .num (x + y)
  | _, _ => .str (jsToString a ++ jsToString b)

/-- Array.prototype.includes against a list of string constants: the
comparison is strict equality, so only an equal string matches. -/
def jsIncludes (l : List String) (v : JsVal) : Bool :=
  match v with
  | .str s => l.contains s
  | _ => false

/-- The comparison c > 0 used on confidence values. -/
def jsGtZero : JsVal → Bool
  | .num n => 0 < n
  | .str s => match s.toInt? with
    | some n => 0 < n
    | none => false
  | .bool b => b
  | _ => false

/-- Math.round of an integer division a / b for positive b, rounding
half toward positive infinity as Math.round does. -/
def intRoundDiv (a : Int) (b : Int) : Int := Int.fdiv (2 * a + b) (2 * b)

/-- Math.round(sum / count) where sum is the JsVal accumulated by the
confidence reduce; non-numeric sums (string concatenations) yield NaN,
modelled as the undefined value. -/
def jsRoundDiv (sum : JsVal) (count : Nat) : JsVal :=
  match sum with
  | .num n => .num (intRoundDiv n count)
  | _ => .undefv

/-- Spreading a value into an array literal: arrays spread their
elements, strings spread their characters, anything else throws. -/
def jsSpreadE : JsVal → Except JsError (List JsVal)
  | .arr xs => .ok xs.toList
  | .str s => .ok (s.data.map fun c => .str (String.singleton c))
  | v => .error (.typeError (jsToString v ++ " is not iterable"))

/-- Array.prototype.forEach / map receiver check: only arrays qualify
in the modelled value range. -/
def jsArrE : JsVal → Except JsError (List JsVal)
  | .arr xs => .ok xs.toList
  | _ => .error (.typeError "value is not an array")

/-- Own-property fields contributed by object spread: objects
contribute their fields, arrays and strings their indexed elements,
other primitives nothing. -/
def spreadFields : JsVal → List (String × JsVal)
  | .obj fs => fs.toList
  | .arr xs => xs.toList.enum.map fun p => (toString p.1, p.2)
  | .str s => s.data.enum.map fun p => (toString p.1, .str (String.singleton p.2))
  | _ => []

/-- Assignment of an object property: overwrites in place when the key
exists, else appends, matching JavaScript property order. -/
def assocSet {β : Type} : List (String × β) → String → β → List (String × β)
  | [], k, v => [(k, v)]
  | (k', v') :: t, k, v => if k' = k then (k, v) :: t else (k', v') :: assocSet t k v

/-- An entry of synthesis.keyInsights (source lines 420-470): the
source tag, the interpolated insight text and the confidence value. -/
structure Insight where
  source : String
  insight : String
  confidence : JsVal
deriving DecidableEq

/-- The synthesis record built by synthesizeResults (source lines
404-412). -/
structure Synthesis where
  overallAssessment : JsVal
  keyInsights : List Insight
  riskFactors : List JsVal
  opportunities : List JsVal
  recommendations : List JsVal
  confidence : JsVal
deriving DecidableEq

/-- The contractAnalyzer branch of synthesizeResults (source lines
419-428).  The plain read of result.scores throws when the payload is
nullish; the overall score is read by optional chaining with a
fallback of the string N/A; risk factors are spread from
riskAssessment.factors when riskAssessment is truthy. -/
def synthContract (result : JsVal) : Except JsError (List Insight × List JsVal) := do
  let sc ← result.getE "scores"
  let scorev := (JsVal.getOpt (JsVal.getOpt sc "overall") "score").orElse (.str "N/A")
  let ins : Insight :=
    { source := "contractAnalyzer",
      insight := "Contract quality score: " ++ jsToString scorev,
      confidence := (result.get "confidence").orElse (.num 0) }
  let ra := result.get "riskAssessment"
  let risks ← if ra.truthy then jsSpreadE (ra.get "factors") else .ok []
  .ok ([ins], risks)

/-- The emotionalIntelligence branch of synthesizeResults (source
lines 430-445). -/
def synthEmotional (result : JsVal) : Except JsError (List Insight × List JsVal) := do
  let sc ← result.getE "scores"
  let ins : List Insight :=
    if sc.truthy then
      [{ source := "emotionalIntelligence",
         insight := "Authenticity score: " ++ jsToString (sc.get "overall") ++ "%",
         confidence := (result.get "confidence").orElse (.num 0) }]
    else []
  let mr := result.get "manipulationRisk"
  let risks : List JsVal :=
    if mr.truthy then
      [JsVal.mkObj [("factor", .str "manipulation_risk"),
        ("level", mr.get "riskLevel"), ("details", mr.get "detectedTactics")]]
    else []
  .ok (ins, risks)

/-- The progressOptimizer branch of synthesizeResults (source lines
447-462).  Mapping over bottlenecks requires an array; each element's
plain type read throws on nullish elements. -/
def synthProgress (result : JsVal) : Except JsError (List Insight × List JsVal) := do
  let ps ← result.getE "progressScore"
  let ins : List Insight :=
    if ps.truthy then
      [{ source := "progressOptimizer",
         insight := "Progress score: " ++ jsToString (ps.get "overall") ++ "%",
         confidence := .num 85 }]
    else []
  let bt := result.get "bottlenecks"
  let risks ← if bt.truthy then do
      let bs ← jsArrE bt
      bs.mapM fun b => do
        let tp ← b.getE "type"
        .ok (JsVal.mkObj [("factor", jsPlus tp (.str "_bottleneck")),
          ("level", b.get "severity"), ("details", b.get "indicators")])
    else .ok []
  .ok (ins, risks)

/-- The mediationEngine branch of synthesizeResults (source lines
464-472). -/
def synthMediation (result : JsVal) : Except JsError (List Insight × List JsVal) := do
  let pt ← result.getE "progressTracking"
  let ins : List Insight :=
    if pt.truthy then
      [{ source := "mediationEngine",
         insight := "Mediation phase: " ++ jsToString (pt.get "phase"),
         confidence := .num 80 }]
    else []
  .ok (ins, [])

/-- The per-agent switch of synthesizeResults (source lines 418-473):
agent names outside the four known cases contribute nothing. -/
def synthAgent (agentName : String) (result : JsVal) :
    Except JsError (List Insight × List JsVal) :=
  if agentName = "contractAnalyzer" then synthContract result
  else if agentName = "emotionalIntelligence" then synthEmotional result
  else if agentName = "progressOptimizer" then synthProgress result
  else if agentName = "mediationEngine" then synthMediation result
  else .ok ([], [])

/-- The forEach over Object.keys(agentResults) in synthesizeResults
(source lines 415-474), accumulating insights and risk factors in key
order. -/
def synthExtract : List (String × JsVal) → Except JsError (List Insight × List JsVal)
  | [] => .ok ([], [])
  | (n, r) :: t => do
    let (i1, f1) ← synthAgent n r
    let (i2, f2) ← synthExtract t
    .ok (i1 ++ i2, f1 ++ f2)

/-- synthesizeResults (source lines 404-482): extracts per-agent
insights and risk factors, then averages the positive confidence
values with Math.round. -/
def synthesizeResults (agentResults : List (String × JsVal)) : Except JsError Synthesis := do
  let (ins, risks) ← synthExtract agentResults
  let confidenceScores := (ins.map Insight.confidence).filter jsGtZero
  let conf := if 0 < confidenceScores.length then
      jsRoundDiv (confidenceScores.foldl jsPlus (.num 0)) confidenceScores.length
    else .num 0
  .ok { overallAssessment := .mkObj [], keyInsights := ins, riskFactors := risks,
        opportunities := [], recommendations := [], confidence := conf }

/-- The priority rank table of prioritizeRecommendations (source line
714): critical 4, high 3, medium 2, low 1, anything else 0. -/
def priorityRank (p : JsVal) : Int :=
  match p with
  | .str s =>
    if s = "critical" then 4
    else if s = "high" then 3
    else if s = "medium" then 2
    else if s = "low" then 1
    else 0
  | _ => 0

/-- The sort key of a recommendation entry. -/
def recRank (r : JsVal) : Int := priorityRank (r.get "priority")

/-- Stable descending insertion used to model Array.prototype.sort:
the ECMAScript sort is stable, and a stable sort under the rank
comparator has a unique result, which this insertion computes. -/
def insertDescBy {α : Type} (rank : α → Int) (x : α) : List α → List α
  | [] => [x]
  | y :: t => if rank y ≤ rank x then x :: y :: t else y :: insertDescBy rank x t

/-- Stable descending sort by an integer rank. -/
def sortDescBy {α : Type} (rank : α → Int) : List α → List α
  | [] => []
  | x :: t => insertDescBy rank x (sortDescBy rank t)

/-- prioritizeRecommendations (source lines 712-717): stable sort by
descending priority rank. -/
def prioritizeRecommendations (recs : List JsVal) : List JsVal :=
  sortDescBy recRank recs

/-- The deduplication key rec.action + rec.category (source line
722). -/
def recKey (r : JsVal) : JsVal := jsPlus (r.get "action") (r.get "category")

/-- The filter of deduplicateRecommendations with its seen set carried
explicitly (source lines 719-727): the first occurrence of each key
survives. -/
def dedupGo (seen : List JsVal) : List JsVal → List JsVal
  | [] => []
  | r :: t => if recKey r ∈ seen then dedupGo seen t
    else r :: dedupGo (recKey r :: seen) t

/-- deduplicateRecommendations (source lines 719-727). -/
def deduplicateRecommendations (recs : List JsVal) : List JsVal := dedupGo [] recs

/-- generateCoordinationRecommendations (source lines 729-737): a
fixed single coordination-level recommendation. -/
def generateCoordinationRecommendations : List JsVal :=
  [JsVal.mkObj [("category", .str "coordination"), ("priority", .str "medium"),
    ("action", .str "Continue coordinated monitoring of repair process"),
    ("reason", .str "Multiple agents are actively monitoring this process"),
    ("source", .str "coordinator")]]

/-- The object literal spreading a recommendation and adding source
and coordinationId (source lines 493-497). -/
def objSpreadWith (rec : JsVal) (source : String) (coordinationId : String) : JsVal :=
  .mkObj (assocSet (assocSet (spreadFields rec) "source" (.str source))
    "coordinationId" (.str coordinationId))

/-- The collection loop of generateUnifiedRecommendations (source
lines 489-500): for each agent result whose recommendations field is
truthy, forEach over it (throwing when it is not an array) and tag
each entry with its source agent and coordination id. -/
def collectRecs (coordinationId : String) : List (String × JsVal) → Except JsError (List JsVal)
  | [] => .ok []
  | (agentName, result) :: t => do
    let rv ← result.getE "recommendations"
    let here ← if rv.truthy then do
        let xs ← jsArrE rv
        .ok (xs.map fun r => objSpreadWith r agentName coordinationId)
      else .ok []
    let rest ← collectRecs coordinationId t
    .ok (here ++ rest)

/-- generateUnifiedRecommendations (source lines 484-510): collect,
then sort by priority, then deduplicate, then append the
coordination-level recommendations. -/
def generateUnifiedRecommendations (agentResults : List (String × JsVal))
    (coordinationId : String) : Except JsError (List JsVal) := do
  let recommendations ← collectRecs coordinationId agentResults
  let prioritized := prioritizeRecommendations recommendations
  let deduplicated := deduplicateRecommendations prioritized
  .ok (deduplicated ++ generateCoordinationRecommendations)

/-- determinePriority (source lines 632-637).  The first plain
property read throws when the context is nullish, which in
analyzeRepairProcess happens before any agent is invoked. -/
def determinePriority (context : JsVal) : Except JsError String := do
  let e ← context.getE "emergency"
  .ok (if e.truthy || (context.get "safety_risk").truthy then "critical"
    else if (context.get "escalation_risk").truthy
      || (context.get "deadline_approaching").truthy then "high"
    else if (context.get "optimization_opportunity").truthy then "medium"
    else "low")

/-- Truthiness of the four agent instance fields of the coordinator
(this.agents), set by initializeAgents. -/
structure AgentsAvail where
  contractAnalyzer : Bool
  mediationEngine : Bool
  emotionalIntelligence : Bool
  progressOptimizer : Bool
deriving DecidableEq

/-- One executeAgentAnalysis call pushed onto agentPromises. -/
structure Invocation where
  agent : String
  method : String
  args : List JsVal
deriving DecidableEq

/-- The condition parties && parties.length > 1 (source line 154). -/
def jsLengthGtOne (v : JsVal) : Bool :=
  match v.get "length" with
  | .num n => 1 < n
  | _ => false

/-- The fan-out of analyzeRepairProcess (source lines 127-167): the
applicable analyzer invocations in push order.  The context is known
non-nullish here because determinePriority ran first. -/
def invocations (agents : AgentsAvail) (ctx : JsVal) : List Invocation :=
  (if agents.contractAnalyzer && (ctx.get "contract").truthy then
    [⟨"contractAnalyzer", "analyzeContract", [ctx.get "contract"]⟩] else [])
  ++ (if agents.emotionalIntelligence && (ctx.get "communications").truthy then
    [⟨"emotionalIntelligence", "recognizeEmotionalPatterns",
      [ctx.get "communications", ctx.get "speakerId"]⟩] else [])
  ++ (if agents.emotionalIntelligence && (ctx.get "apologyText").truthy then
    [⟨"emotionalIntelligence", "analyzeAuthenticity",
      [ctx.get "apologyText", ctx]⟩] else [])
  ++ (if agents.mediationEngine && (ctx.get "parties").truthy
      && jsLengthGtOne (ctx.get "parties") then
    [⟨"mediationEngine", "initiateMediationSession",
      [ctx.get "parties", ctx]⟩] else [])
  ++ (if agents.progressOptimizer && (ctx.get "processId").truthy then
    [⟨"progressOptimizer", "analyzeProgress",
      [ctx.get "processId", ctx.get "currentStatus"]⟩] else [])

/-- The outcome oracle for analyzer invocations: executeAgentAnalysis
resolves to the agent result or rejects with an error message
(analyzers are external collaborators). -/
def Behavior : Type := String → String → List JsVal → Except String JsVal

/-- An entry of coordination.conflicts (source lines 178-182).  The
agent field reads agentPromises index .agent, a property no promise
has, so it is always undefined. -/
structure Conflict where
  type : String
  agent : JsVal
  error : String
deriving DecidableEq

/-- The results.forEach merge of analyzeRepairProcess (source lines
173-184): fulfilled outcomes are Object.assigned into agentResults in
settled order (which Promise.allSettled fixes to push order), and
rejections append agent_failure conflicts. -/
def mergeFrom (agentResults : List (String × JsVal)) (conflicts : List Conflict) :
    List (String × Except String JsVal) → List (String × JsVal) × List Conflict
  | [] => (agentResults, conflicts)
  | (agentName, .ok v) :: t => mergeFrom (assocSet agentResults agentName v) conflicts t
  | (_, .error e) :: t =>
      mergeFrom agentResults (conflicts ++ [⟨"agent_failure", JsVal.undefv, e⟩]) t

/-- The coordination record of analyzeRepairProcess (source lines
112-122), with the timestamps (wall-clock) omitted. -/
structure Coordination where
  id : String
  context : JsVal
  agentResults : List (String × JsVal)
  conflicts : List Conflict
  consensus : Synthesis
  recommendations : List JsVal
  priority : String
  status : String

/-- The settled outcomes collected by Promise.allSettled (source line
170): one outcome per invocation, in push order (allSettled reports
results in input order, independent of completion order). -/
def settledOutcomes (agents : AgentsAvail) (behavior : Behavior) (ctx : JsVal) :
    List (String × Except String JsVal) :=
  (invocations agents ctx).map fun i => (i.agent, behavior i.agent i.method i.args)

/-- analyzeRepairProcess (source lines 110-200).  An error outcome
models a thrown exception (the catch marks the coordination failed
and rethrows); a returned coordination always has status completed. -/
def analyzeRepairProcess (agents : AgentsAvail) (behavior : Behavior)
    (analysisId : String) (repairContext : JsVal) : Except JsError Coordination := do
  let priority ← determinePriority repairContext
  let merged := mergeFrom [] [] (settledOutcomes agents behavior repairContext)
  let consensus ← synthesizeResults merged.1
  let recommendations ← generateUnifiedRecommendations merged.1 analysisId
  .ok { id := analysisId, context := repairContext, agentResults := merged.1,
        conflicts := merged.2, consensus := consensus,
        recommendations := recommendations, priority := priority,
        status := "completed" }

/-- One entry of the agentCommunicationLog.  Timestamps are modelled
as integers (the date value of the recorded ISO timestamp). -/
structure LogEntry where
  agent : String
  method : String
  executionTime : Int
  success : Bool
  timestamp : Int
deriving DecidableEq

/-- The metrics object of getAgentPerformanceMetrics (source lines
746-758). -/
structure PerfMetrics where
  successRate : Int
  averageExecutionTime : Int
  totalCalls : Nat
deriving DecidableEq

/-- A per-agent entry of healthCheck.agentStatus (source lines
598-607): an operational entry carries lastActivity and performance,
an unavailable entry carries the issue string; absent fields are
none. -/
structure AgentHealth where
  status : String
  lastActivity : Option Int := none
  performance : Option PerfMetrics := none
  issue : Option String := none
deriving DecidableEq

/-- The memory object of checkMemoryUsage (source lines 760-767). -/
structure MemoryUsage where
  coordinationsCount : Nat
  eventQueueSize : Nat
  logSize : Nat
deriving DecidableEq

/-- healthCheck.systemResources (source lines 613-617). -/
structure SystemResources where
  memory : MemoryUsage
  eventQueueSize : Nat
  activeCoordinations : Nat
deriving DecidableEq

/-- The healthCheck object built by performHealthCheck (source lines
586-592), timestamp omitted. -/
structure HealthCheck where
  overallStatus : String
  agentStatus : List (String × AgentHealth)
  issues : List String
  systemResources : SystemResources
deriving DecidableEq

/-- The this.systemHealth field.  The constructor stores an object
with a status field (source lines 31-35); performHealthCheck replaces
it wholesale with the healthCheck object, which instead has an
overallStatus field (source line 627).  Fields absent from the stored
object are none. -/
structure SystemHealth where
  status : Option String
  overallStatus : Option String
  agentStatus : List (String × AgentHealth)
  issues : Option (List String)
deriving DecidableEq

/-- The constructor value of this.systemHealth (source lines 31-35). -/
def initialSystemHealth : SystemHealth :=
  { status := some "operational", overallStatus := none, agentStatus := [], issues := none }

/-- The eventProcessing record of handleEvent (source lines 209-218),
timestamp and responses omitted (responses are only written by the
drain loop, which always fails before reaching them). -/
structure EventRecord where
  id : String
  event : JsVal
  priority : String
  involvedAgents : List String
  status : String
deriving DecidableEq

/-- The mutable coordinator state touched by the modelled methods. -/
structure CoordState where
  agents : AgentsAvail
  systemHealth : SystemHealth
  eventQueue : List EventRecord
  processingQueue : Bool
  agentCommunicationLog : List LogEntry
  activeCoordinationsCount : Nat

/-- The coordinator state right after the constructor (source lines
7-39). -/
def initialCoordState : CoordState :=
  { agents := ⟨false, false, false, false⟩, systemHealth := initialSystemHealth,
    eventQueue := [], processingQueue := false, agentCommunicationLog := [],
    activeCoordinationsCount := 0 }

/-- getLastAgentActivity (source lines 739-744): the timestamp of the
most recent log entry of the agent, or none. -/
def getLastAgentActivity (st : CoordState) (agentName : String) : Option Int :=
  ((sortDescBy (fun l => l.timestamp)
    (st.agentCommunicationLog.filter fun l => l.agent == agentName)).head?).map
    fun l => l.timestamp

/-- getAgentPerformanceMetrics (source lines 746-758), with the
floating-point averages modelled by rounded integer division. -/
def getAgentPerformanceMetrics (st : CoordState) (agentName : String) : PerfMetrics :=
  let logs := st.agentCommunicationLog.filter fun l => l.agent == agentName
  let successes := (logs.filter fun l => l.success).length
  let sumTime := logs.foldl (fun acc l => acc + l.executionTime) 0
  { successRate := if 0 < logs.length then intRoundDiv (successes * 100) logs.length else 0,
    averageExecutionTime := if 0 < logs.length then intRoundDiv sumTime logs.length else 0,
    totalCalls := logs.length }

/-- performHealthCheck (source lines 585-629): builds the per-agent
status map over the four fixed agent keys, derives the aggregate
status from the number of unavailable agents, and replaces
this.systemHealth wholesale with the healthCheck object (whose
aggregate lives in overallStatus, not status). -/
def performHealthCheck (st : CoordState) : HealthCheck × CoordState :=
  let entry := fun (name : String) (avail : Bool) =>
    if avail then
      (name, ({ status := "operational",
                lastActivity := getLastAgentActivity st name,
                performance := some (getAgentPerformanceMetrics st name) } : AgentHealth))
    else
      (name, ({ status := "unavailable", issue := some "Agent not initialized" } : AgentHealth))
  let agentStatus :=
    [entry "contractAnalyzer" st.agents.contractAnalyzer,
     entry "mediationEngine" st.agents.mediationEngine,
     entry "emotionalIntelligence" st.agents.emotionalIntelligence,
     entry "progressOptimizer" st.agents.progressOptimizer]
  let unavailable := agentStatus.filter fun p => p.2.status == "unavailable"
  let overallStatus :=
    if 0 < unavailable.length then
      (if 2 < unavailable.length then "critical" else "degraded")
    else "operational"
  let hc : HealthCheck :=
    { overallStatus := overallStatus,
      agentStatus := agentStatus,
      issues := unavailable.map fun p => p.1 ++ " is not available",
      systemResources :=
        { memory := { coordinationsCount := st.activeCoordinationsCount,
                      eventQueueSize := st.eventQueue.length,
                      logSize := st.agentCommunicationLog.length },
          eventQueueSize := st.eventQueue.length,
          activeCoordinations := st.activeCoordinationsCount } }
  (hc, { st with systemHealth :=
    { status := none, overallStatus := some hc.overallStatus,
      agentStatus := hc.agentStatus, issues := some hc.issues } })

/-- Net state effect of processEventQueue (source lines 513-529): the
drain shifts every queued event; each drained event fails (the drain
calls routeEventToAgent and coordinateEventResponses, neither defined
on AgentCoordinator) and is discarded, and the processing flag ends
false. -/
def processEventQueueEffect (st : CoordState) : CoordState :=
  { st with eventQueue := [], processingQueue := false }

/-- startEventProcessing (source lines 705-709). -/
def startEventProcessing (st : CoordState) : CoordState :=
  if st.processingQueue then st
  else match st.eventQueue with
    | [] => st
    | _ => processEventQueueEffect st

/-- The readiness report of initializeAgents (source lines 47-53),
timestamp omitted. -/
structure InitResults where
  success : Bool
  agents : List (String × String)
  errors : List String
  systemReadiness : Bool
deriving DecidableEq

/-- initializeAgents (source lines 46-103).  Each missing registry
entry throws, so the single catch records exactly one error and the
remaining agents are not initialized; when all four are present the
health check runs and systemReadiness is set by comparing
this.systemHealth.status with the string operational — a field the
freshly stored healthCheck object does not have (it stores the
aggregate under overallStatus), so the comparison is with an absent
field. -/
def initializeAgents (registry : AgentsAvail) (st : CoordState) : InitResults × CoordState :=
  if !registry.contractAnalyzer then
    ({ success := false, agents := [],
       errors := ["ContractAnalyzer not available"], systemReadiness := false }, st)
  else
    let st1 := { st with agents := { st.agents with contractAnalyzer := true } }
    let agents1 := [("contractAnalyzer", "initialized")]
    if !registry.mediationEngine then
      ({ success := false, agents := agents1,
         errors := ["MediationEngine not available"], systemReadiness := false }, st1)
    else
      let st2 := { st1 with agents := { st1.agents with mediationEngine := true } }
      let agents2 := agents1 ++ [("mediationEngine", "initialized")]
      if !registry.emotionalIntelligence then
        ({ success := false, agents := agents2,
           errors := ["EmotionalIntelligenceAgent not available"], systemReadiness := false }, st2)
      else
        let st3 := { st2 with agents := { st2.agents with emotionalIntelligence := true } }
        let agents3 := agents2 ++ [("emotionalIntelligence", "initialized")]
        if !registry.progressOptimizer then
          ({ success := false, agents := agents3,
             errors := ["ProgressOptimizer not available"], systemReadiness := false }, st3)
        else
          let st4 := { st3 with agents := { st3.agents with progressOptimizer := true } }
          let agents4 := agents3 ++ [("progressOptimizer", "initialized")]
          let (_, st5) := performHealthCheck st4
          let ready := decide (st5.systemHealth.status = some "operational")
          let st6 := startEventProcessing st5
          ({ success := true, agents := agents4, errors := [], systemReadiness := ready }, st6)

/-- The record returned by getSystemStatus (source lines 684-691). -/
structure SystemStatus where
  health : SystemHealth
  activeCoordinations : Nat
  eventQueueSize : Nat
  agentCommunicationLog : List LogEntry
deriving DecidableEq

/-- The slice keeping the last n entries (source line 689). -/
def listTakeLast {α : Type} (n : Nat) (l : List α) : List α := l.drop (l.length - n)

/-- getSystemStatus (source lines 684-691). -/
def getSystemStatus (st : CoordState) : SystemStatus :=
  { health := st.systemHealth, activeCoordinations := st.activeCoordinationsCount,
    eventQueueSize := st.eventQueue.length,
    agentCommunicationLog := listTakeLast 10 st.agentCommunicationLog }

/-- The critical event types (source line 640). -/
def criticalTypes : List String := ["emotional_crisis", "immediate_safety", "contract_violation"]

/-- The high event types (source line 641). -/
def highTypes : List String := ["progress_stall", "escalation_risk", "authenticity_concern"]

/-- The medium event types (source line 642). -/
def mediumTypes : List String := ["optimization_opportunity", "milestone_approaching", "engagement_decline"]

/-- assessEventPriority (source lines 639-648): the first plain read
of event.type throws when the event is nullish; unmapped types are
low. -/
def assessEventPriority (event : JsVal) : Except JsError String := do
  let ty ← event.getE "type"
  .ok (if jsIncludes criticalTypes ty then "critical"
    else if jsIncludes highTypes ty then "high"
    else if jsIncludes mediumTypes ty then "medium"
    else "low")

/-- identifyInvolvedAgents (source lines 650-660): unmapped categories
broadcast to the default agent triple. -/
def identifyInvolvedAgents (event : JsVal) : List String :=
  match event.get "category" with
  | .str s =>
    if s = "contract_analysis" then ["contractAnalyzer"]
    else if s = "emotional_event" then ["emotionalIntelligence"]
    else if s = "communication_event" then ["mediationEngine", "emotionalIntelligence"]
    else if s = "progress_event" then ["progressOptimizer"]
    else if s = "multi_party_event" then ["mediationEngine", "progressOptimizer"]
    else ["contractAnalyzer", "emotionalIntelligence", "progressOptimizer"]
  | _ => ["contractAnalyzer", "emotionalIntelligence", "progressOptimizer"]

/-- The criticalResponse record of handleCriticalEvent (source lines
554-561), timestamp omitted. -/
structure CriticalResponse where
  eventId : String
  priority : String
  immediateActions : List String
  alertsSent : List String
  status : String
deriving DecidableEq

/-- The per-type immediate action lists of handleCriticalEvent
(source lines 564-579). -/
def criticalImmediateActions (ty : JsVal) : List String :=
  match ty with
  | .str s =>
    if s = "emotional_crisis" then
      ["activate_emotional_support", "notify_emergency_contacts"]
    else if s = "immediate_safety" then
      ["activate_safety_protocol", "contact_authorities"]
    else if s = "contract_violation" then
      ["document_violation", "notify_stakeholders"]
    else []
  | _ => []

/-- handleCriticalEvent (source lines 552-582). -/
def handleCriticalEvent (record : EventRecord) : CriticalResponse :=
  { eventId := record.id, priority := "critical",
    immediateActions := criticalImmediateActions (record.event.get "type"),
    alertsSent := [], status := "handled" }

/-- handleEvent (source lines 207-245).  The eventProcessing record is
pushed onto the event queue unconditionally, before the critical
check; a critical event is then answered synchronously by
handleCriticalEvent while its record stays in the queue.  A
non-critical event triggers the drain (when not already running) and
then throws: building the queued response reads
this.estimateProcessingTime, a method AgentCoordinator never defines
(see agentCoordinatorMethods). -/
def handleEvent (eventId : String) (event : JsVal) (st : CoordState) :
    Except JsError CriticalResponse × CoordState :=
  match assessEventPriority event with
  | .error e => (.error e, st)
  | .ok priority =>
    let record : EventRecord :=
      { id := eventId, event := event, priority := priority,
        involvedAgents := identifyInvolvedAgents event, status := "processing" }
    let st1 := { st with eventQueue := st.eventQueue ++ [record] }
    if priority = "critical" then
      (.ok (handleCriticalEvent record), st1)
    else
      if st.processingQueue then
        (.error (.typeError "this.estimateProcessingTime is not a function"),
         { st1 with eventQueue := st.eventQueue ++ [{ record with status := "failed" }] })
      else
        (.error (.typeError "this.estimateProcessingTime is not a function"),
         processEventQueueEffect st1)

/-- The methods defined in the body of class AgentCoordinator (source
lines 6-768), in declaration order. -/
def agentCoordinatorMethods : List String :=
  ["constructor", "initializeAgents", "analyzeRepairProcess", "handleEvent",
   "coordinateIntervention", "managePriorities", "resolveAgentConflicts",
   "executeAgentAnalysis", "synthesizeResults", "generateUnifiedRecommendations",
   "processEventQueue", "processEvent", "handleCriticalEvent", "performHealthCheck",
   "determinePriority", "assessEventPriority", "identifyInvolvedAgents",
   "generateAnalysisId", "generateEventId", "generateInterventionId",
   "logAgentCommunication", "getSystemStatus", "getActiveCoordinations",
   "getCoordination", "stopEventProcessing", "startEventProcessing",
   "prioritizeRecommendations", "deduplicateRecommendations",
   "generateCoordinationRecommendations", "getLastAgentActivity",
   "getAgentPerformanceMetrics", "checkMemoryUsage"]

/-- A this.m(...) method call on the coordinator: when m is not a
method of the class the call throws a TypeError, as in JavaScript. -/
def coordMethodCall {α : Type} (m : String) (impl : Unit → α) : Except JsError α :=
  if agentCoordinatorMethods.contains m then .ok (impl ())
  else .error (.typeError ("this." ++ m ++ " is not a function"))

/-- A conflict as consumed by the resolution loop of
resolveAgentConflicts: an id, a severity and its remaining data. -/
structure ConflictRec where
  id : String
  severity : String
  data : JsVal
deriving DecidableEq

/-- The resolution record of resolveAgentConflicts (source lines
328-334), timestamp omitted. -/
structure Resolution where
  conflicts : List ConflictRec
  resolutionMethod : List (String × String)
  finalDecisions : List (String × JsVal)
  consensus : JsVal

/-- The per-conflict switch of resolveAgentConflicts (source lines
336-358): severity selects the strategy name and the helper method;
severities outside the four cases fall through with no assignment.
The impl arguments stand in for the bodies of the helper methods,
none of which the class defines, so each call site goes through the
method-table lookup. -/
def resolveConflictLoop
    (expertOverrideImpl weightedVotingImpl buildConsensusImpl findCompromiseImpl :
      ConflictRec → JsVal) :
    List ConflictRec → List (String × String) → List (String × JsVal) →
    Except JsError (List (String × String) × List (String × JsVal))
  | [], methods, decisions => .ok (methods, decisions)
  | c :: t, methods, decisions =>
    if c.severity = "critical" then do
      let d ← coordMethodCall "expertOverride" fun _ => expertOverrideImpl c
      resolveConflictLoop expertOverrideImpl weightedVotingImpl buildConsensusImpl
        findCompromiseImpl t (assocSet methods c.id "expert_override")
        (assocSet decisions c.id d)
    else if c.severity = "high" then do
      let d ← coordMethodCall "weightedVoting" fun _ => weightedVotingImpl c
      resolveConflictLoop expertOverrideImpl weightedVotingImpl buildConsensusImpl
        findCompromiseImpl t (assocSet methods c.id "weighted_voting")
        (assocSet decisions c.id d)
    else if c.severity = "medium" then do
      let d ← coordMethodCall "buildConsensus" fun _ => buildConsensusImpl c
      resolveConflictLoop expertOverrideImpl weightedVotingImpl buildConsensusImpl
        findCompromiseImpl t (assocSet methods c.id "consensus_building")
        (assocSet decisions c.id d)
    else if c.severity = "low" then do
      let d ← coordMethodCall "findCompromise" fun _ => findCompromiseImpl c
      resolveConflictLoop expertOverrideImpl weightedVotingImpl buildConsensusImpl
        findCompromiseImpl t (assocSet methods c.id "compromise")
        (assocSet decisions c.id d)
    else
      resolveConflictLoop expertOverrideImpl weightedVotingImpl buildConsensusImpl
        findCompromiseImpl t methods decisions

/-- resolveAgentConflicts (source lines 326-364).  The very first
statement calls this.identifyConflicts; AgentCoordinator defines no
identifyConflicts method (nor any of the strategy helpers), so the
call throws a TypeError before any strategy is assigned. -/
def resolveAgentConflicts
    (identifyConflictsImpl : JsVal → List ConflictRec)
    (expertOverrideImpl weightedVotingImpl buildConsensusImpl findCompromiseImpl :
      ConflictRec → JsVal)
    (buildOverallConsensusImpl : List (String × JsVal) → JsVal)
    (agentRecommendations : JsVal) : Except JsError Resolution := do
  let conflicts ← coordMethodCall "identifyConflicts"
    fun _ => identifyConflictsImpl agentRecommendations
  let (methods, decisions) ← resolveConflictLoop expertOverrideImpl weightedVotingImpl
    buildConsensusImpl findCompromiseImpl conflicts [] []
  let consensus ← coordMethodCall "buildOverallConsensus"
    fun _ => buildOverallConsensusImpl decisions
  .ok { conflicts := conflicts, resolutionMethod := methods,
        finalDecisions := decisions, consensus := consensus }

/-! Auxiliary definitions for the verification (not translations of
source code unless stated). -/

/-- The keys of an association list. -/
def keysOf {β : Type} (l : List (String × β)) : List String := l.map Prod.fst

/-- Lookup in an association list (the reading counterpart of
assocSet). -/
def assocLookup {β : Type} (k : String) : List (String × β) → Option β
  | [] => none
  | (k', v) :: t => if k' = k then some v else assocLookup k t

/-- The value of the last fulfilled outcome for a given agent name in
a settled-outcome list, if any: the payload Object.assign leaves in
agentResults under that name. -/
def lastOk (k : String) : List (String × Except String JsVal) → Option JsVal
  | [] => none
  | (n, r) :: t =>
    match lastOk k t with
    | some v => some v
    | none => if n = k then r.toOption else none

/-- The four agent names, in the fixed push order of the fan-out. -/
def canonicalAgents : List String :=
  ["contractAnalyzer", "emotionalIntelligence", "mediationEngine", "progressOptimizer"]

/-- Position of an agent name in the fan-out push order (proof
auxiliary). -/
def rankAgent (n : String) : Nat :=
  if n = "contractAnalyzer" then 0
  else if n = "emotionalIntelligence" then 1
  else if n = "mediationEngine" then 2
  else if n = "progressOptimizer" then 3
  else 4

/-- Strict fan-out-order relation on agentResults entries (proof
auxiliary). -/
def pairRankLt (a b : String × JsVal) : Prop := rankAgent a.1 < rankAgent b.1

instance : IsAntisymm (String × JsVal) pairRankLt :=
  ⟨fun _ _ h1 h2 => absurd h1 (Nat.lt_asymm h2)⟩

/-- The number of unavailable agents reported by a health check (the
quantity the aggregate status rule is stated over). -/
def unavailableAgents (hc : HealthCheck) : Nat :=
  (hc.agentStatus.filter fun p => p.2.status == "unavailable").length

/-- The error message initializeAgents records for the first missing
registry entry, in its check order, if any entry is missing. -/
def firstMissingError (registry : AgentsAvail) : Option String :=
  if !registry.contractAnalyzer then some "ContractAnalyzer not available"
  else if !registry.mediationEngine then some "MediationEngine not available"
  else if !registry.emotionalIntelligence then some "EmotionalIntelligenceAgent not available"
  else if !registry.progressOptimizer then some "ProgressOptimizer not available"
  else none

/-- Modelled from the spec's words for claim C6: deduplication whose
identity is the (action, category) pair — two recommendations are
duplicates exactly when both their action and their category are
equal — keeping the first-arriving duplicate (seen set carried
explicitly). -/
def dedupPairGo (seen : List (JsVal × JsVal)) : List JsVal → List JsVal
  | [] => []
  | r :: t =>
    if (r.get "action", r.get "category") ∈ seen then dedupPairGo seen t
    else r :: dedupPairGo ((r.get "action", r.get "category") :: seen) t

/-- Modelled from the spec's words for claim C6: deduplicate by the
(action, category) pair with the first-arriving duplicate
surviving. -/
def specDedupByPair (recs : List JsVal) : List JsVal := dedupPairGo [] recs

/-- Modelled from the spec's words for claim C6 (the refinement
counterpart of generateUnifiedRecommendations): first deduplicate by
the (action, category) pair with the first-arriving duplicate
surviving, then stable-sort descending by priority rank, then append
the coordination-level recommendations. -/
def specUnifiedRecommendations (agentResults : List (String × JsVal))
    (coordinationId : String) : Except JsError (List JsVal) := do
  let recommendations ← collectRecs coordinationId agentResults
  .ok (sortDescBy recRank (specDedupByPair recommendations)
    ++ generateCoordinationRecommendations)

/-- The (action, category) pair of a recommendation entry (the
identity the spec and claim C6 state deduplication in terms of). -/
def recPair (r : JsVal) : JsVal × JsVal := (r.get "action", r.get "category")

/-! Concrete inputs used by witnesses and counterexamples. -/

/-- All four agents available. -/
def agAll : AgentsAvail := ⟨true, true, true, true⟩

/-- A fallback synthesis value. -/
def emptySynthesis : Synthesis :=
  { overallAssessment := .undefv, keyInsights := [], riskFactors := [],
    opportunities := [], recommendations := [], confidence := .undefv }

/-- A fallback coordination value. -/
def emptyCoordination : Coordination :=
  { id := "", context := .undefv, agentResults := [], conflicts := [],
    consensus := emptySynthesis, recommendations := [], priority := "",
    status := "" }

/-- A behavior whose contract analysis rejects while every other
analysis fulfills with an empty object. -/
def behW : Behavior := fun _ m _ =>
  if m = "analyzeContract" then .error "contract analyzer crashed" else .ok (.mkObj [])

/-- A context that makes the contract analyzer and the authenticity
analysis applicable. -/
def ctxW : JsVal := .mkObj [("contract", .str "terms"), ("apologyText", .str "sorry")]

/-- The coordination returned for the behW run. -/
def cW : Coordination :=
  (analyzeRepairProcess agAll behW "w1" ctxW).toOption.getD emptyCoordination

/-- A behavior fulfilling every analysis with a fixed scores
payload. -/
def beh5a : Behavior := fun _ _ _ =>
  .ok (.mkObj [("scores", .mkObj [("overall", .num 80)])])

/-- Like beh5a but rejecting mediation analyses (which the ctx5 run
never invokes). -/
def beh5b : Behavior := fun a _ _ =>
  if a = "mediationEngine" then .error "mediation rejected"
  else .ok (.mkObj [("scores", .mkObj [("overall", .num 80)])])

/-- A context invoking only the authenticity analysis. -/
def ctx5 : JsVal := .mkObj [("apologyText", .str "sorry")]

/-- The coordination of the first synthesis-determinism run. -/
def c5a : Coordination :=
  (analyzeRepairProcess agAll beh5a "p1" ctx5).toOption.getD emptyCoordination

/-- The coordination of the second synthesis-determinism run. -/
def c5b : Coordination :=
  (analyzeRepairProcess agAll beh5b "p2" ctx5).toOption.getD emptyCoordination

/-- A behavior distinguishing the two emotional-intelligence
methods. -/
def behEI : Behavior := fun _ m _ =>
  if m = "analyzeAuthenticity" then .ok (.mkObj [("m", .str "auth")])
  else .ok (.mkObj [("m", .str "patterns")])

/-- A context containing both communications and apologyText, so the
emotionalIntelligence agent is invoked twice. -/
def ctx10 : JsVal :=
  .mkObj [("communications", .mkArr [.str "hi"]), ("apologyText", .str "sorry")]

/-- The coordination of the double-invocation run. -/
def c10 : Coordination :=
  (analyzeRepairProcess agAll behEI "d1" ctx10).toOption.getD emptyCoordination

/-- A critical event (type immediate_safety). -/
def ev2 : JsVal := .mkObj [("type", .str "immediate_safety")]

/-- A low-priority recommendation for the pair (A, x). -/
def recLow : JsVal :=
  .mkObj [("action", .str "A"), ("category", .str "x"), ("priority", .str "low")]

/-- A high-priority recommendation for the same pair (A, x), arriving
after recLow. -/
def recHigh : JsVal :=
  .mkObj [("action", .str "A"), ("category", .str "x"), ("priority", .str "high")]

/-- An agentResults map whose one agent emitted recLow then
recHigh. -/
def arC6 : List (String × JsVal) :=
  [("contractAnalyzer", .mkObj [("recommendations", .mkArr [recLow, recHigh])])]

/-- A recommendation with action ab and category c: its concatenated
dedup key is abc. -/
def recABthenC : JsVal :=
  .mkObj [("action", .str "ab"), ("category", .str "c"), ("priority", .str "high")]

/-- A recommendation with the distinct pair (a, bc) but the same
concatenated key abc. -/
def recAthenBC : JsVal :=
  .mkObj [("action", .str "a"), ("category", .str "bc"), ("priority", .str "low")]

/-- An agentResults map whose recommendations have distinct
(action, category) pairs with equal concatenations. -/
def arPair : List (String × JsVal) :=
  [("contractAnalyzer", .mkObj [("recommendations", .mkArr [recABthenC, recAthenBC])])]

/-- An agent recommendation carrying exactly the (action, category)
pair of the fixed coordination-level recommendation. -/
def recCollide : JsVal :=
  .mkObj [("action", .str "Continue coordinated monitoring of repair process"),
    ("category", .str "coordination"), ("priority", .str "high")]

/-- An agentResults map whose one recommendation collides with the
appended coordination-level recommendation. -/
def arCollide : List (String × JsVal) :=
  [("contractAnalyzer", .mkObj [("recommendations", .mkArr [recCollide])])]

/-- The unified recommendation list the code produces for arC6. -/
def l6 : List JsVal :=
  (generateUnifiedRecommendations arC6 "c1").toOption.getD []

/-- A registry with three of the four expected agents (the first,
ContractAnalyzer, missing). -/
def reg3 : AgentsAvail := ⟨false, true, true, true⟩

/-- The collected (tagged) recommendation list of the arC6 run. -/
def collected6 : List JsVal := (collectRecs "c1" arC6).toOption.getD []

instance {ε α : Type} [DecidableEq ε] [DecidableEq α] : DecidableEq (Except ε α) :=
  fun a b =>
    match a, b with
    | .ok x, .ok y =>
      if h : x = y then isTrue (by rw [h])
      else isFalse (by intro hh; injection hh with h1; exact h h1)
    | .error x, .error y =>
      if h : x = y then isTrue (by rw [h])
      else isFalse (by intro hh; injection hh with h1; exact h h1)
    | .ok _, .error _ => isFalse nofun
    | .error _, .ok _ => isFalse nofun

/-! Lemmas about association updates and the settled-result merge. -/

theorem assocLookup_assocSet {β : Type} (l : List (String × β)) (k k2 : String) (v : β) :
    assocLookup k2 (assocSet l k v) = if k = k2 then some v else assocLookup k2 l := by
  induction l with
  | nil => simp [assocSet, assocLookup]
  | cons p t ih =>
    obtain ⟨k', v'⟩ := p
    by_cases h : k' = k
    · subst h
      by_cases h2 : k' = k2 <;> simp [assocSet, assocLookup, h2]
    · by_cases h2 : k' = k2 <;> by_cases h3 : k = k2 <;>
        simp_all [assocSet, assocLookup]

theorem keysOf_assocSet {β : Type} (l : List (String × β)) (k : String) (v : β) :
    keysOf (assocSet l k v) = if k ∈ keysOf l then keysOf l else keysOf l ++ [k] := by
  induction l with
  | nil => simp [assocSet, keysOf]
  | cons p t ih =>
    obtain ⟨k', v'⟩ := p
    by_cases h : k' = k
    · subst h; simp [assocSet, keysOf]
    · by_cases hm : k ∈ keysOf t <;>
        simp_all [assocSet, keysOf, Ne.symm h]

theorem mergeFrom_conflicts (l : List (String × Except String JsVal)) :
    ∀ acc cf, (mergeFrom acc cf l).2 = cf ++ (l.filterMap fun p =>
      match p.2 with
      | .error e => some ⟨"agent_failure", .undefv, e⟩
      | .ok _ => none) := by
  induction l with
  | nil => intro acc cf; simp [mergeFrom]
  | cons p t ih =>
    intro acc cf
    obtain ⟨n, r⟩ := p
    cases r with
    | ok v => simp [mergeFrom, ih, List.filterMap_cons]
    | error e => simp [mergeFrom, ih, List.filterMap_cons]

theorem mergeFrom_lookup (l : List (String × Except String JsVal)) :
    ∀ (acc : List (String × JsVal)) (cf : List Conflict) (k : String),
    assocLookup k (mergeFrom acc cf l).1 =
      match lastOk k l with
      | some v => some v
      | none => assocLookup k acc := by
  induction l with
  | nil => intro acc cf k; simp [mergeFrom, lastOk]
  | cons p t ih =>
    intro acc cf k
    obtain ⟨n, r⟩ := p
    cases r with
    | ok v =>
      rw [mergeFrom, ih]
      cases hl : lastOk k t with
      | some w => simp [lastOk, hl]
      | none =>
        rw [assocLookup_assocSet]
        by_cases hnk : n = k <;> simp [lastOk, hl, hnk, Except.toOption]
    | error e =>
      rw [mergeFrom, ih]
      cases hl : lastOk k t with
      | some w => simp [lastOk, hl]
      | none => by_cases hnk : n = k <;> simp [lastOk, hl, hnk, Except.toOption]

theorem lastOk_append (k : String) (l1 l2 : List (String × Except String JsVal)) :
    lastOk k (l1 ++ l2) =
      match lastOk k l2 with
      | some v => some v
      | none => lastOk k l1 := by
  induction l1 with
  | nil => simp only [List.nil_append]; cases lastOk k l2 <;> simp [lastOk]
  | cons p t ih =>
    obtain ⟨n, r⟩ := p
    simp only [List.cons_append, lastOk, List.append_eq]
    rw [ih]
    cases h2 : lastOk k l2 with
    | some v => simp
    | none => cases ht : lastOk k t <;> simp

theorem lastOk_eq_none (k : String) (l : List (String × Except String JsVal))
    (h : ∀ p ∈ l, p.1 ≠ k) : lastOk k l = none := by
  induction l with
  | nil => rfl
  | cons p t ih =>
    obtain ⟨n, r⟩ := p
    have hn : n ≠ k := h (n, r) (by simp)
    rw [lastOk, ih fun q hq => h q (List.mem_cons_of_mem _ hq)]
    simp [hn]

theorem analyzeRepairProcess_ok_parts (ag : AgentsAvail) (beh : Behavior)
    (analysisId : String) (ctx : JsVal) (c : Coordination)
    (h : analyzeRepairProcess ag beh analysisId ctx = .ok c) :
    c.status = "completed" ∧
    c.agentResults = (mergeFrom [] [] (settledOutcomes ag beh ctx)).1 ∧
    c.conflicts = (mergeFrom [] [] (settledOutcomes ag beh ctx)).2 ∧
    synthesizeResults c.agentResults = .ok c.consensus := by
  unfold analyzeRepairProcess at h
  cases hd : determinePriority ctx with
  | error e => simp [hd, bind, Except.bind] at h
  | ok pr =>
    cases hs : synthesizeResults (mergeFrom [] [] (settledOutcomes ag beh ctx)).1 with
    | error e => simp [hd, hs, bind, Except.bind] at h
    | ok syn =>
      cases hg : generateUnifiedRecommendations
          (mergeFrom [] [] (settledOutcomes ag beh ctx)).1 analysisId with
      | error e => simp [hd, hs, hg, bind, Except.bind] at h
      | ok recs =>
        simp only [hd, hs, hg, bind, Except.bind, Except.ok.injEq] at h
        subst h
        exact ⟨rfl, rfl, rfl, hs⟩

theorem canonInj : ∀ a ∈ canonicalAgents, ∀ b ∈ canonicalAgents,
    rankAgent a = rankAgent b → a = b := by decide

theorem invocations_names_le (ag : AgentsAvail) (ctx : JsVal) :
    ((invocations ag ctx).map Invocation.agent).Pairwise
      fun a b => rankAgent a ≤ rankAgent b := by
  unfold invocations
  by_cases h1 : (ag.contractAnalyzer && (ctx.get "contract").truthy) = true <;>
  by_cases h2 : (ag.emotionalIntelligence && (ctx.get "communications").truthy) = true <;>
  by_cases h3 : (ag.emotionalIntelligence && (ctx.get "apologyText").truthy) = true <;>
  by_cases h4 : (ag.mediationEngine && (ctx.get "parties").truthy
    && jsLengthGtOne (ctx.get "parties")) = true <;>
  by_cases h5 : (ag.progressOptimizer && (ctx.get "processId").truthy) = true <;>
  simp [h1, h2, h3, h4, h5] <;> decide

theorem invocations_names_canonical (ag : AgentsAvail) (ctx : JsVal) :
    ∀ n ∈ (invocations ag ctx).map Invocation.agent, n ∈ canonicalAgents := by
  unfold invocations
  by_cases h1 : (ag.contractAnalyzer && (ctx.get "contract").truthy) = true <;>
  by_cases h2 : (ag.emotionalIntelligence && (ctx.get "communications").truthy) = true <;>
  by_cases h3 : (ag.emotionalIntelligence && (ctx.get "apologyText").truthy) = true <;>
  by_cases h4 : (ag.mediationEngine && (ctx.get "parties").truthy
    && jsLengthGtOne (ctx.get "parties")) = true <;>
  by_cases h5 : (ag.progressOptimizer && (ctx.get "processId").truthy) = true <;>
  simp [h1, h2, h3, h4, h5] <;> decide

theorem mergeFrom_keys_sorted (l : List (String × Except String JsVal)) :
    ∀ (acc : List (String × JsVal)) (cf : List Conflict),
    ((l.map Prod.fst).Pairwise fun a b => rankAgent a ≤ rankAgent b) →
    (∀ n ∈ l.map Prod.fst, n ∈ canonicalAgents) →
    ((keysOf acc).Pairwise fun a b => rankAgent a < rankAgent b) →
    (∀ n ∈ keysOf acc, n ∈ canonicalAgents) →
    (∀ n ∈ keysOf acc, ∀ m ∈ l.map Prod.fst, rankAgent n ≤ rankAgent m) →
    ((keysOf (mergeFrom acc cf l).1).Pairwise fun a b => rankAgent a < rankAgent b) ∧
    (∀ n ∈ keysOf (mergeFrom acc cf l).1, n ∈ canonicalAgents) := by
  induction l with
  | nil =>
    intro acc cf _ _ hacc haccCanon _
    exact ⟨hacc, haccCanon⟩
  | cons p t ih =>
    intro acc cf hle hcanon hacc haccCanon hbound
    obtain ⟨n, r⟩ := p
    simp only [List.map_cons, List.pairwise_cons] at hle
    simp only [List.map_cons, List.mem_cons] at hcanon
    have hn_canon : n ∈ canonicalAgents := hcanon n (Or.inl rfl)
    have hcanon_t : ∀ m ∈ t.map Prod.fst, m ∈ canonicalAgents :=
      fun m hm => hcanon m (Or.inr hm)
    cases r with
    | error e =>
      rw [mergeFrom]
      exact ih _ _ hle.2 hcanon_t hacc haccCanon
        fun n' hn' m hm => hbound n' hn' m (by simp [hm])
    | ok v =>
      rw [mergeFrom]
      refine ih _ _ hle.2 hcanon_t ?_ ?_ ?_
      · rw [keysOf_assocSet]
        by_cases hmem : n ∈ keysOf acc
        · simpa [hmem] using hacc
        · simp only [hmem, if_false]
          rw [List.pairwise_append]
          refine ⟨hacc, by simp, ?_⟩
          intro a ha b hb
          simp only [List.mem_singleton] at hb
          rw [hb]
          have hle_an : rankAgent a ≤ rankAgent n := hbound a ha n (by simp)
          rcases lt_or_eq_of_le hle_an with hlt | heq
          · exact hlt
          · exact absurd (canonInj a (haccCanon a ha) n hn_canon heq ▸ ha) hmem
      · rw [keysOf_assocSet]
        by_cases hmem : n ∈ keysOf acc
        · simpa [hmem] using haccCanon
        · simp only [hmem, if_false]
          intro m hm
          rcases List.mem_append.mp hm with hm' | hm'
          · exact haccCanon m hm'
          · simp only [List.mem_singleton] at hm'
            exact hm' ▸ hn_canon
      · intro n' hn' m hm
        rw [keysOf_assocSet] at hn'
        by_cases hmem : n ∈ keysOf acc
        · rw [if_pos hmem] at hn'
          exact hbound n' hn' m (by simp [hm])
        · rw [if_neg hmem] at hn'
          rcases List.mem_append.mp hn' with hn'' | hn''
          · exact hbound n' hn'' m (by simp [hm])
          · simp only [List.mem_singleton] at hn''
            exact hn'' ▸ hle.1 m hm

theorem settledOutcomes_names (ag : AgentsAvail) (beh : Behavior) (ctx : JsVal) :
    (settledOutcomes ag beh ctx).map Prod.fst = (invocations ag ctx).map Invocation.agent := by
  simp [settledOutcomes, List.map_map]

theorem analyzeRepairProcess_agentResults_sorted (ag : AgentsAvail) (beh : Behavior)
    (analysisId : String) (ctx : JsVal) (c : Coordination)
    (h : analyzeRepairProcess ag beh analysisId ctx = .ok c) :
    (keysOf c.agentResults).Pairwise fun a b => rankAgent a < rankAgent b := by
  obtain ⟨-, har, -, -⟩ := analyzeRepairProcess_ok_parts ag beh analysisId ctx c h
  rw [har]
  refine (mergeFrom_keys_sorted _ [] [] ?_ ?_ ?_ ?_ ?_).1
  · rw [settledOutcomes_names]; exact invocations_names_le ag ctx
  · rw [settledOutcomes_names]; exact invocations_names_canonical ag ctx
  · simp [keysOf]
  · simp [keysOf]
  · simp [keysOf]

theorem nodup_of_keys_sorted (l : List (String × JsVal))
    (h : (keysOf l).Pairwise fun a b => rankAgent a < rankAgent b) :
    (keysOf l).Nodup :=
  h.imp fun hlt heq => absurd (heq ▸ hlt) (lt_irrefl _)

theorem eq_of_perm_of_keys_sorted (l1 l2 : List (String × JsVal))
    (h1 : (keysOf l1).Pairwise fun a b => rankAgent a < rankAgent b)
    (h2 : (keysOf l2).Pairwise fun a b => rankAgent a < rankAgent b)
    (hp : l1.Perm l2) : l1 = l2 := by
  have s1 : List.Sorted pairRankLt l1 := by
    rw [keysOf, List.pairwise_map] at h1; exact h1
  have s2 : List.Sorted pairRankLt l2 := by
    rw [keysOf, List.pairwise_map] at h2; exact h2
  exact List.eq_of_perm_of_sorted hp s1 s2

/-! Lemmas about the recommendation sort and deduplication. -/

theorem insertDescBy_perm {α : Type} (rank : α → Int) (x : α) (l : List α) :
    (insertDescBy rank x l).Perm (x :: l) := by
  induction l with
  | nil => simp [insertDescBy]
  | cons y t ih =>
    rw [insertDescBy]
    by_cases h : rank y ≤ rank x
    · simp [h]
    · simp only [if_neg h]
      exact (ih.cons y).trans (List.Perm.swap x y t)

theorem sortDescBy_perm {α : Type} (rank : α → Int) (l : List α) :
    (sortDescBy rank l).Perm l := by
  induction l with
  | nil => simp [sortDescBy]
  | cons x t ih =>
    rw [sortDescBy]
    exact (insertDescBy_perm rank x (sortDescBy rank t)).trans (ih.cons x)

theorem insertDescBy_pairwise {α : Type} (rank : α → Int) (x : α) (l : List α)
    (h : l.Pairwise fun a b => rank b ≤ rank a) :
    (insertDescBy rank x l).Pairwise fun a b => rank b ≤ rank a := by
  induction l with
  | nil => simp [insertDescBy]
  | cons y t ih =>
    rw [List.pairwise_cons] at h
    rw [insertDescBy]
    by_cases hxy : rank y ≤ rank x
    · rw [if_pos hxy, List.pairwise_cons]
      refine ⟨?_, List.pairwise_cons.mpr h⟩
      intro b hb
      rcases List.mem_cons.mp hb with hb' | hb'
      · exact hb' ▸ hxy
      · exact le_trans (h.1 b hb') hxy
    · rw [if_neg hxy, List.pairwise_cons]
      refine ⟨?_, ih h.2⟩
      intro b hb
      have hb2 := (insertDescBy_perm rank x t).mem_iff.mp hb
      rcases List.mem_cons.mp hb2 with hb' | hb'
      · exact hb' ▸ le_of_lt (lt_of_not_le hxy)
      · exact h.1 b hb'

theorem sortDescBy_pairwise {α : Type} (rank : α → Int) (l : List α) :
    (sortDescBy rank l).Pairwise fun a b => rank b ≤ rank a := by
  induction l with
  | nil => simp [sortDescBy]
  | cons x t ih => exact insertDescBy_pairwise rank x _ ih

theorem dedupGo_sublist (seen : List JsVal) (l : List JsVal) :
    (dedupGo seen l).Sublist l := by
  induction l generalizing seen with
  | nil => simp [dedupGo]
  | cons r t ih =>
    rw [dedupGo]
    by_cases h : recKey r ∈ seen
    · rw [if_pos h]; exact (ih seen).cons r
    · rw [if_neg h]; exact (ih (recKey r :: seen)).cons₂ r

theorem dedupGo_keys_nodup (l : List JsVal) :
    ∀ seen : List JsVal, ((dedupGo seen l).map recKey).Nodup ∧
      ∀ k ∈ (dedupGo seen l).map recKey, k ∉ seen := by
  induction l with
  | nil => simp [dedupGo]
  | cons r t ih =>
    intro seen
    rw [dedupGo]
    by_cases h : recKey r ∈ seen
    · simpa [h] using ih seen
    · simp only [if_neg h, List.map_cons]
      obtain ⟨hnd, hfresh⟩ := ih (recKey r :: seen)
      refine ⟨List.Nodup.cons ?_ hnd, ?_⟩
      · intro hmem
        exact hfresh _ hmem (List.mem_cons_self _ _)
      · intro k hk
        rcases List.mem_cons.mp hk with hk' | hk'
        · exact hk' ▸ h
        · exact fun hks => hfresh k hk' (List.mem_cons_of_mem _ hks)

theorem pair_nodup_of_key_nodup (l : List JsVal)
    (h : (l.map recKey).Nodup) : (l.map recPair).Nodup := by
  have h' : l.Pairwise fun a b => recKey a ≠ recKey b :=
    List.pairwise_map.mp (show (l.map recKey).Pairwise (· ≠ ·) from h)
  have h2 : l.Pairwise fun a b => recPair a ≠ recPair b := by
    refine h'.imp ?_
    intro a b hne heq
    refine hne ?_
    have hact : a.get "action" = b.get "action" := congrArg Prod.fst heq
    have hcat : a.get "category" = b.get "category" := congrArg Prod.snd heq
    unfold recKey
    rw [hact, hcat]
  exact List.pairwise_map.mpr h2

/-! The claims. -/

/-- Claim C1: whenever analyzeRepairProcess returns a coordination
(that is, no error escaped outside the per-analyzer fan-out), its
status is completed even when invoked analyzers rejected; every
rejection is recorded as an agent_failure conflict; and every agent
with a fulfilled invocation keeps its (most recently settled) payload
in agentResults.  A returned coordination is never failed, so failed
can arise only from an error outside the fan-out. -/
theorem analyzeRepairProcess_tolerates_agent_failures
    (ag : AgentsAvail) (beh : Behavior) (analysisId : String) (ctx : JsVal)
    (c : Coordination) (h : analyzeRepairProcess ag beh analysisId ctx = .ok c) :
    c.status = "completed" ∧
    (∀ i ∈ invocations ag ctx, ∀ e, beh i.agent i.method i.args = .error e →
      Conflict.mk "agent_failure" .undefv e ∈ c.conflicts) ∧
    (∀ name v, lastOk name (settledOutcomes ag beh ctx) = some v →
      assocLookup name c.agentResults = some v) := by
  obtain ⟨hst, har, hcf, -⟩ := analyzeRepairProcess_ok_parts ag beh analysisId ctx c h
  refine ⟨hst, ?_, ?_⟩
  · intro i hi e he
    rw [hcf, mergeFrom_conflicts]
    simp only [List.nil_append]
    apply List.mem_filterMap.mpr
    refine ⟨(i.agent, beh i.agent i.method i.args), ?_, ?_⟩
    · exact List.mem_map.mpr ⟨i, hi, rfl⟩
    · simp [he]
  · intro name v hv
    rw [har, mergeFrom_lookup, hv]

/-- Witness for C1: with the contract analysis rejecting and the
authenticity analysis fulfilling, the coordination completes, records
the agent_failure conflict, and keeps the fulfilled payload. -/
theorem analyzeRepairProcess_tolerates_agent_failures_witness :
    cW.status = "completed" ∧
    Conflict.mk "agent_failure" .undefv "contract analyzer crashed" ∈ cW.conflicts ∧
    assocLookup "emotionalIntelligence" cW.agentResults = some (.mkObj []) := by
  have h : analyzeRepairProcess agAll behW "w1" ctxW = .ok cW := rfl
  have h2 := analyzeRepairProcess_tolerates_agent_failures agAll behW "w1" ctxW cW h
  refine ⟨h2.1, ?_, ?_⟩
  · exact h2.2.1 ⟨"contractAnalyzer", "analyzeContract", [JsVal.str "terms"]⟩
      (by decide) "contract analyzer crashed" rfl
  · exact h2.2.2 "emotionalIntelligence" (.mkObj []) rfl

/-- Claim C2 counterexample: a critical event (type immediate_safety)
submitted to a coordinator with an empty queue is answered with status
handled, yet the pending queue length after the call is not equal to
the length before it (the record was pushed before the critical
check). -/
theorem handleEvent_critical_queued_counterexample :
    (handleEvent "evt1" ev2 initialCoordState).1 =
      .ok { eventId := "evt1", priority := "critical",
            immediateActions := ["activate_safety_protocol", "contact_authorities"],
            alertsSent := [], status := "handled" } ∧
    (handleEvent "evt1" ev2 initialCoordState).2.eventQueue.length ≠
      initialCoordState.eventQueue.length := ⟨rfl, by decide⟩

/-- Claim C2 as amended: for every critical-priority event,
handleEvent returns the per-type handled response synchronously, but
the event record is appended to the pending queue before the critical
check and is not removed, so the queue grows by exactly one and the
record remains available to the drain loop. -/
theorem handleEvent_critical_handled_but_queued
    (st : CoordState) (eventId : String) (event : JsVal)
    (h : assessEventPriority event = .ok "critical") :
    (handleEvent eventId event st).1 =
      .ok { eventId := eventId, priority := "critical",
            immediateActions := criticalImmediateActions (event.get "type"),
            alertsSent := [], status := "handled" } ∧
    (handleEvent eventId event st).2.eventQueue =
      st.eventQueue ++ [{ id := eventId, event := event, priority := "critical",
                          involvedAgents := identifyInvolvedAgents event,
                          status := "processing" }] := by
  unfold handleEvent
  rw [h]
  simp [handleCriticalEvent]

/-- Witness for the amended C2 at a concrete critical event. -/
theorem handleEvent_critical_handled_but_queued_witness :
    (handleEvent "evt2" ev2 initialCoordState).1 =
      .ok { eventId := "evt2", priority := "critical",
            immediateActions := criticalImmediateActions (ev2.get "type"),
            alertsSent := [], status := "handled" } ∧
    (handleEvent "evt2" ev2 initialCoordState).2.eventQueue =
      initialCoordState.eventQueue ++ [{ id := "evt2", event := ev2,
                                          priority := "critical",
                                          involvedAgents := identifyInvolvedAgents ev2,
                                          status := "processing" }] :=
  handleEvent_critical_handled_but_queued initialCoordState "evt2" ev2 rfl

/-- Claim C3: the claim says the returned readiness flag is true iff
the health check reports operational; in the code the flag is false on
every call — performHealthCheck stores the aggregate under
overallStatus and replaces systemHealth wholesale, so the comparison
this.systemHealth.status with operational always reads an absent field
— even when all four agents are available and the health check just
reported operational. -/
theorem initializeAgents_systemReadiness_always_false :
    (∀ (registry : AgentsAvail) (st : CoordState),
      (initializeAgents registry st).1.systemReadiness = false) ∧
    (initializeAgents agAll initialCoordState).2.systemHealth.overallStatus =
      some "operational" := by
  constructor
  · intro registry st
    obtain ⟨a, b, c, d⟩ := registry
    cases a <;> cases b <;> cases c <;> cases d <;> rfl
  · rfl

/-- Claim C4: the claim describes the severity-to-strategy dispatch of
resolveAgentConflicts, but the method throws a TypeError on every
input before any strategy is assigned or finalDecisions produced,
because its first statement calls the undefined this.identifyConflicts
(evaluated here at the empty recommendations object). -/
theorem resolveAgentConflicts_concrete_typeerror :
    resolveAgentConflicts (fun _ => []) (fun _ => .undefv) (fun _ => .undefv)
      (fun _ => .undefv) (fun _ => .undefv) (fun _ => .undefv) (.mkObj []) =
      .error (.typeError "this.identifyConflicts is not a function") := rfl

/-- Claim C5: the synthesis output is a function of the final
agentResults map alone.  Any two runs of analyzeRepairProcess whose
final agentResults maps hold the same entries (a permutation) have
identical consensus, because allSettled fixes the merge order to push
order, so both maps are sorted by the fixed agent order and are
therefore the same list, and synthesizeResults is a pure function. -/
theorem synthesizeResults_order_independent
    (ag1 ag2 : AgentsAvail) (beh1 beh2 : Behavior) (id1 id2 : String)
    (ctx1 ctx2 : JsVal) (c1 c2 : Coordination)
    (h1 : analyzeRepairProcess ag1 beh1 id1 ctx1 = .ok c1)
    (h2 : analyzeRepairProcess ag2 beh2 id2 ctx2 = .ok c2)
    (hp : c1.agentResults.Perm c2.agentResults) :
    c1.consensus = c2.consensus ∧
    synthesizeResults c1.agentResults = synthesizeResults c2.agentResults := by
  have heq : c1.agentResults = c2.agentResults :=
    eq_of_perm_of_keys_sorted _ _
      (analyzeRepairProcess_agentResults_sorted ag1 beh1 id1 ctx1 c1 h1)
      (analyzeRepairProcess_agentResults_sorted ag2 beh2 id2 ctx2 c2 h2) hp
  obtain ⟨-, -, -, hs1⟩ := analyzeRepairProcess_ok_parts ag1 beh1 id1 ctx1 c1 h1
  obtain ⟨-, -, -, hs2⟩ := analyzeRepairProcess_ok_parts ag2 beh2 id2 ctx2 c2 h2
  have hok : (Except.ok c1.consensus : Except JsError Synthesis) = Except.ok c2.consensus := by
    rw [← hs1, ← hs2, heq]
  exact ⟨by injection hok, by rw [heq]⟩

/-- Witness for C5: two runs with different ids and behaviors that
settle the same final agentResults map have the same consensus. -/
theorem synthesizeResults_order_independent_witness :
    c5a.consensus = c5b.consensus :=
  (synthesizeResults_order_independent agAll agAll beh5a beh5b "p1" "p2"
    ctx5 ctx5 c5a c5b rfl rfl (List.Perm.refl _)).1

/-- Claim C6 counterexample, refuting the claim in three concrete
runs.  First, at arC6 (same pair, low then high priority) the code
output differs from the claimed deduplicate-first-then-sort
construction: the code sorts first and then deduplicates, so the
high-priority duplicate survives instead of the first-arriving one.
Second, at arPair the code output also differs: the code's
deduplication key is the concatenated string action + category (line
722), which merges the distinct pairs (ab, c) and (a, bc), while the
claim deduplicates only entries equal in both action and category.
Third, at arCollide the final list carries two entries with the same
(action, category) pair — a surviving agent recommendation and the
appended coordination-level recommendation — refuting the claim that
no two entries of the final list share a pair. -/
theorem generateUnifiedRecommendations_counterexample :
    generateUnifiedRecommendations arC6 "c1" ≠ specUnifiedRecommendations arC6 "c1" ∧
    generateUnifiedRecommendations arPair "c2" ≠ specUnifiedRecommendations arPair "c2" ∧
    ¬ (((generateUnifiedRecommendations arCollide "c3").toOption.getD []).map
        recPair).Nodup := by
  refine ⟨by decide, by decide, by decide⟩

/-- Claim C6 as amended: the final list is the agent-sourced
recommendations first stable-sorted descending by priority rank
(critical 4, high 3, medium 2, low 1; ties keep arrival order), then
deduplicated keeping the first occurrence in sorted order, where the
deduplication key is the concatenated string action + category — so
entries equal in both action and category always merge, with the
highest-priority duplicate surviving rather than the first-arriving
one, but distinct pairs with equal concatenations merge too — with
the coordination-level recommendations appended after the
agent-sourced ones.  Consequently no two agent-sourced entries share
a concatenated key, and in particular no two share the same
(action, category) pair; only the appended coordination-level entry
can repeat a pair. -/
theorem generateUnifiedRecommendations_structure
    (ar : List (String × JsVal)) (coordinationId : String) (l : List JsVal)
    (h : generateUnifiedRecommendations ar coordinationId = .ok l) :
    ∃ collected, collectRecs coordinationId ar = .ok collected ∧
      l = deduplicateRecommendations (prioritizeRecommendations collected) ++
        generateCoordinationRecommendations ∧
      (prioritizeRecommendations collected).Perm collected ∧
      ((deduplicateRecommendations (prioritizeRecommendations collected)).Pairwise
        fun a b => recRank b ≤ recRank a) ∧
      ((deduplicateRecommendations (prioritizeRecommendations collected)).map recKey).Nodup ∧
      ((deduplicateRecommendations (prioritizeRecommendations collected)).map recPair).Nodup := by
  unfold generateUnifiedRecommendations at h
  cases hc : collectRecs coordinationId ar with
  | error e => simp [hc, bind, Except.bind] at h
  | ok collected =>
    simp only [hc, bind, Except.bind, Except.ok.injEq] at h
    refine ⟨collected, rfl, h.symm, sortDescBy_perm _ _, ?_,
      (dedupGo_keys_nodup _ []).1, pair_nodup_of_key_nodup _ (dedupGo_keys_nodup _ []).1⟩
    exact (sortDescBy_pairwise _ _).sublist (dedupGo_sublist [] _)

/-- Witness for the amended C6 at the arC6 input. -/
theorem generateUnifiedRecommendations_structure_witness :
    l6 = deduplicateRecommendations (prioritizeRecommendations collected6) ++
      generateCoordinationRecommendations ∧
    (prioritizeRecommendations collected6).Perm collected6 ∧
    ((deduplicateRecommendations (prioritizeRecommendations collected6)).Pairwise
      fun a b => recRank b ≤ recRank a) ∧
    ((deduplicateRecommendations (prioritizeRecommendations collected6)).map recKey).Nodup ∧
    ((deduplicateRecommendations (prioritizeRecommendations collected6)).map recPair).Nodup := by
  obtain ⟨col, hcol, hl, hperm, hpw, hnd, hpnd⟩ :=
    generateUnifiedRecommendations_structure arC6 "c1" l6 rfl
  have hc : col = collected6 := by
    have : (collectRecs "c1" arC6).toOption.getD [] = col := by rw [hcol]; rfl
    rw [collected6, this]
  rw [hc] at hl hperm hpw hnd hpnd
  exact ⟨hl, hperm, hpw, hnd, hpnd⟩

/-- Claim C7 counterexample: with three of the four expected agents
present (ContractAnalyzer missing), initializeAgents records exactly
one error but initializes none of the remaining (available) agents,
and getSystemStatus afterwards does not report degraded — the health
check never ran, so systemHealth keeps its constructor value, which
has no overallStatus field at all. -/
theorem initializeAgents_three_of_four_counterexample :
    (initializeAgents reg3 initialCoordState).1.errors = ["ContractAnalyzer not available"] ∧
    (initializeAgents reg3 initialCoordState).1.systemReadiness = false ∧
    (initializeAgents reg3 initialCoordState).1.agents = [] ∧
    (getSystemStatus (initializeAgents reg3 initialCoordState).2).health.overallStatus ≠
      some "degraded" := ⟨rfl, rfl, rfl, by decide⟩

/-- Claim C7 as amended: a missing registry entry throws, so
initializeAgents records exactly one error (for the first missing
agent in check order), aborts initialization of the agents checked
after it, returns success=false and systemReady=false, and leaves
systemHealth untouched (the health check is skipped), so
getSystemStatus keeps reporting the constructor health object. -/
theorem initializeAgents_aborts_on_first_missing
    (registry : AgentsAvail) (st : CoordState) (e : String)
    (h : firstMissingError registry = some e) :
    (initializeAgents registry st).1.success = false ∧
    (initializeAgents registry st).1.errors = [e] ∧
    (initializeAgents registry st).1.systemReadiness = false ∧
    (getSystemStatus (initializeAgents registry st).2).health = st.systemHealth := by
  obtain ⟨a, b, c, d⟩ := registry
  cases a <;> cases b <;> cases c <;> cases d <;>
    simp_all [firstMissingError, initializeAgents, getSystemStatus]

/-- Witness for the amended C7 at the three-of-four registry. -/
theorem initializeAgents_aborts_on_first_missing_witness :
    (initializeAgents reg3 initialCoordState).1.success = false ∧
    (initializeAgents reg3 initialCoordState).1.errors = ["ContractAnalyzer not available"] ∧
    (initializeAgents reg3 initialCoordState).1.systemReadiness = false ∧
    (getSystemStatus (initializeAgents reg3 initialCoordState).2).health =
      initialCoordState.systemHealth :=
  initializeAgents_aborts_on_first_missing reg3 initialCoordState
    "ContractAnalyzer not available" rfl

/-- Claim C8: the aggregate health status is operational exactly when
no agent is unavailable, degraded exactly when one or two are, and
critical exactly when more than two are. -/
theorem performHealthCheck_aggregate_status (st : CoordState) :
    ((unavailableAgents (performHealthCheck st).1 = 0) ↔
      (performHealthCheck st).1.overallStatus = "operational") ∧
    ((unavailableAgents (performHealthCheck st).1 = 1 ∨
      unavailableAgents (performHealthCheck st).1 = 2) ↔
      (performHealthCheck st).1.overallStatus = "degraded") ∧
    ((2 < unavailableAgents (performHealthCheck st).1) ↔
      (performHealthCheck st).1.overallStatus = "critical") := by
  obtain ⟨⟨a, b, c, d⟩, sh, q, pq, log, n⟩ := st
  cases a <;> cases b <;> cases c <;> cases d <;>
    simp [performHealthCheck, unavailableAgents]

/-- Claim C9: the public resolveAgentConflicts method throws a
TypeError on every input and never returns a resolution: its first
statement calls this.identifyConflicts, which (like the strategy
helpers it would dispatch to) is not defined anywhere on
AgentCoordinator. -/
theorem resolveAgentConflicts_always_throws
    (identifyConflictsImpl : JsVal → List ConflictRec)
    (eo wv bc fc : ConflictRec → JsVal)
    (boc : List (String × JsVal) → JsVal) (recs : JsVal) :
    resolveAgentConflicts identifyConflictsImpl eo wv bc fc boc recs =
      .error (.typeError "this.identifyConflicts is not a function") := rfl

/-- Claim C10: agentResults is keyed only by agent name — its keys are
duplicate-free — and when the context carries both communications and
apologyText the emotionalIntelligence agent is invoked twice, the
authenticity result (merged later in push order) overwriting the
pattern result under the single emotionalIntelligence key. -/
theorem analyzeRepairProcess_agentResults_single_key
    (ag : AgentsAvail) (beh : Behavior) (analysisId : String) (ctx : JsVal)
    (c : Coordination) (h : analyzeRepairProcess ag beh analysisId ctx = .ok c) :
    (keysOf c.agentResults).Nodup ∧
    (ag.emotionalIntelligence = true →
     (ctx.get "communications").truthy = true →
     (ctx.get "apologyText").truthy = true →
     ∀ v, beh "emotionalIntelligence" "analyzeAuthenticity"
        [ctx.get "apologyText", ctx] = .ok v →
       assocLookup "emotionalIntelligence" c.agentResults = some v) := by
  refine ⟨nodup_of_keys_sorted _
    (analyzeRepairProcess_agentResults_sorted ag beh analysisId ctx c h), ?_⟩
  intro hEI hcomm hap v hv
  obtain ⟨-, har, -, -⟩ := analyzeRepairProcess_ok_parts ag beh analysisId ctx c h
  rw [har, mergeFrom_lookup]
  have hlast : lastOk "emotionalIntelligence" (settledOutcomes ag beh ctx) = some v := by
    unfold settledOutcomes invocations
    by_cases hg1 : (ag.contractAnalyzer && (ctx.get "contract").truthy) = true <;>
    by_cases hg4 : (ag.mediationEngine && (ctx.get "parties").truthy
      && jsLengthGtOne (ctx.get "parties")) = true <;>
    by_cases hg5 : (ag.progressOptimizer && (ctx.get "processId").truthy) = true <;>
      simp [hg1, hg4, hg5, hEI, hcomm, hap, lastOk, hv, Except.toOption]
  rw [hlast]

/-- Witness for C10: with communications and apologyText both present
and distinct payloads from the two emotional-intelligence methods, the
single emotionalIntelligence entry holds the authenticity payload. -/
theorem analyzeRepairProcess_agentResults_single_key_witness :
    (keysOf c10.agentResults).Nodup ∧
    assocLookup "emotionalIntelligence" c10.agentResults =
      some (.mkObj [("m", .str "auth")]) := by
  have h2 := analyzeRepairProcess_agentResults_single_key agAll behEI "d1" ctx10 c10 rfl
  exact ⟨h2.1, h2.2 rfl rfl rfl _ rfl⟩

end RepairCoordinator
